import Mathlib

/-!
# Verification of the `colorama` text-decoration library

Shallow embedding of `src/lib.rs`: three name-to-ANSI-escape lookup tables
(`map_color`, `map_background`, `map_style`, each returning `Option String`)
and the three `Colored` methods on `String` (`color`, `background`, `style`),
which on a match prepend the escape code and append the reset sequence
`"\x1b[0m"`, and on no match leave the string unchanged.
-/

namespace Colorama

/-- The ANSI reset sequence appended after every successful decoration. -/
def reset : String := "\x1b[0m"

/-- Translated from `map_color` in `src/lib.rs` (lines 28-49): the Rust
`match` on the color name, rendered as the equivalent chain of string
equality tests. -/
def map_color (color : String) : Option String :=
  if color = "normal" then some "\x1b[0m"
  else if color = "black" then some "\x1b[30m"
  else if color = "red" then some "\x1b[31m"
  else if color = "green" then some "\x1b[32m"
  else if color = "yellow" then some "\x1b[33m"
  else if color = "blue" then some "\x1b[34m"
  else if color = "magenta" then some "\x1b[35m"
  else if color = "cyan" then some "\x1b[36m"
  else if color = "white" then some "\x1b[37m"
  else if color = "bright black" then some "\x1b[90m"
  else if color = "bright red" then some "\x1b[91m"
  else if color = "bright green" then some "\x1b[92m"
  else if color = "bright yellow" then some "\x1b[93m"
  else if color = "bright blue" then some "\x1b[94m"
  else if color = "bright magenta" then some "\x1b[95m"
  else if color = "bright cyan" then some "\x1b[96m"
  else if color = "bright white" then some "\x1b[97m"
  else none

/-- Translated from `map_background` in `src/lib.rs` (lines 51-72). -/
def map_background (background : String) : Option String :=
  if background = "normal" then some "\x1b[0m"
  else if background = "black" then some "\x1b[40m"
  else if background = "red" then some "\x1b[41m"
  else if background = "green" then some "\x1b[42m"
  else if background = "yellow" then some "\x1b[43m"
  else if background = "blue" then some "\x1b[44m"
  else if background = "magenta" then some "\x1b[45m"
  else if background = "cyan" then some "\x1b[46m"
  else if background = "white" then some "\x1b[47m"
  else if background = "bright black" then some "\x1b[100m"
  else if background = "bright red" then some "\x1b[101m"
  else if background = "bright green" then some "\x1b[102m"
  else if background = "bright yellow" then some "\x1b[103m"
  else if background = "bright blue" then some "\x1b[104m"
  else if background = "bright magenta" then some "\x1b[105m"
  else if background = "bright cyan" then some "\x1b[106m"
  else if background = "bright white" then some "\x1b[107m"
  else none

/-- Translated from `map_style` in `src/lib.rs` (lines 74-83). -/
def map_style (style : String) : Option String :=
  if style = "normal" then some "\x1b[0m"
  else if style = "bold" then some "\x1b[1m"
  else if style = "faint" then some "\x1b[2m"
  else if style = "italic" then some "\x1b[3m"
  else if style = "underline" then some "\x1b[4m"
  else none

/-- `Colored::color` for `String` (`src/lib.rs` lines 150-157): on a match,
`insert_str(0, c)` then `push_str("\x1b[0m")`, i.e. the result is
`c ++ s ++ "\x1b[0m"`; on no match the string is returned unchanged. -/
def color (s : String) (c : String) : String :=
  match map_color c with
  | some e => e ++ s ++ "\x1b[0m"
  | none => s

/-- `Colored::background` for `String` (`src/lib.rs` lines 173-180). -/
def background (s : String) (b : String) : String :=
  match map_background b with
  | some e => e ++ s ++ "\x1b[0m"
  | none => s

/-- `Colored::style` for `String` (`src/lib.rs` lines 196-203). -/
def style (s : String) (st : String) : String :=
  match map_style st with
  | some e => e ++ s ++ "\x1b[0m"
  | none => s

/-- The 17 color / background names recognized by `map_color` and
`map_background`. -/
def recognizedNames : List String :=
  ["normal", "black", "red", "green", "yellow", "blue", "magenta", "cyan",
   "white", "bright black", "bright red", "bright green", "bright yellow",
   "bright blue", "bright magenta", "bright cyan", "bright white"]

/-- The 5 style names recognized by `map_style`. -/
def styleNames : List String :=
  ["normal", "bold", "faint", "italic", "underline"]

/-- Spec-side table for claim C1, written from the spec's words: `normal`
maps to the reset code, `black..white` to codes 30-37, and
`bright black..bright white` to codes 90-97. To be compared with
`map_color`, the table translated from the source. -/
def escapeForColorSpec (name : String) : String :=
  if name = "normal" then "\x1b[0m"
  else if name = "black" then "\x1b[30m"
  else if name = "red" then "\x1b[31m"
  else if name = "green" then "\x1b[32m"
  else if name = "yellow" then "\x1b[33m"
  else if name = "blue" then "\x1b[34m"
  else if name = "magenta" then "\x1b[35m"
  else if name = "cyan" then "\x1b[36m"
  else if name = "white" then "\x1b[37m"
  else if name = "bright black" then "\x1b[90m"
  else if name = "bright red" then "\x1b[91m"
  else if name = "bright green" then "\x1b[92m"
  else if name = "bright yellow" then "\x1b[93m"
  else if name = "bright blue" then "\x1b[94m"
  else if name = "bright magenta" then "\x1b[95m"
  else if name = "bright cyan" then "\x1b[96m"
  else "\x1b[97m"

/-- Spec-side table for claim C4, written from the spec's words: `normal`
maps to the reset code, `black..white` to codes 40-47, and
`bright black..bright white` to codes 100-107. -/
def escapeForBackgroundSpec (name : String) : String :=
  if name = "normal" then "\x1b[0m"
  else if name = "black" then "\x1b[40m"
  else if name = "red" then "\x1b[41m"
  else if name = "green" then "\x1b[42m"
  else if name = "yellow" then "\x1b[43m"
  else if name = "blue" then "\x1b[44m"
  else if name = "magenta" then "\x1b[45m"
  else if name = "cyan" then "\x1b[46m"
  else if name = "white" then "\x1b[47m"
  else if name = "bright black" then "\x1b[100m"
  else if name = "bright red" then "\x1b[101m"
  else if name = "bright green" then "\x1b[102m"
  else if name = "bright yellow" then "\x1b[103m"
  else if name = "bright blue" then "\x1b[104m"
  else if name = "bright magenta" then "\x1b[105m"
  else if name = "bright cyan" then "\x1b[106m"
  else "\x1b[107m"

/-- Spec-side table for claim C5, written from the spec's words: `normal`
maps to code 0, `bold` to 1, `faint` to 2, `italic` to 3, `underline`
to 4. -/
def escapeForStyleSpec (name : String) : String :=
  if name = "normal" then "\x1b[0m"
  else if name = "bold" then "\x1b[1m"
  else if name = "faint" then "\x1b[2m"
  else if name = "italic" then "\x1b[3m"
  else "\x1b[4m"

/-- One decoration call: which of the three `Colored` methods is invoked,
with its attribute-name argument. -/
inductive Deco where
  | color (name : String)
  | background (name : String)
  | style (name : String)
deriving DecidableEq

/-- The escape code (if any) a decoration call resolves to. -/
def escOf : Deco → Option String
  | .color n => map_color n
  | .background n => map_background n
  | .style n => map_style n

/-- Apply one decoration call to a string. -/
def applyDeco (s : String) : Deco → String
  | .color n => color s n
  | .background n => background s n
  | .style n => style s n

/-- Apply a sequence of decoration calls, left to right (the order in which
the chained method calls execute). -/
def applyAll (s : String) (ds : List Deco) : String :=
  ds.foldl applyDeco s

/-- Concatenation of a list of strings. -/
def concatAll (l : List String) : String :=
  l.foldr (· ++ ·) ""

theorem color_of_some {c e : String} (h : map_color c = some e) (s : String) :
    color s c = e ++ s ++ reset := by
  simp [color, h, reset]

theorem color_of_none {c : String} (h : map_color c = none) (s : String) :
    color s c = s := by
  simp [color, h]

theorem background_of_some {b e : String} (h : map_background b = some e)
    (s : String) : background s b = e ++ s ++ reset := by
  simp [background, h, reset]

theorem background_of_none {b : String} (h : map_background b = none)
    (s : String) : background s b = s := by
  simp [background, h]

theorem style_of_some {st e : String} (h : map_style st = some e) (s : String) :
    style s st = e ++ s ++ reset := by
  simp [style, h, reset]

theorem style_of_none {st : String} (h : map_style st = none) (s : String) :
    style s st = s := by
  simp [style, h]

theorem applyDeco_of_some {d : Deco} {e : String} (h : escOf d = some e)
    (s : String) : applyDeco s d = e ++ s ++ reset := by
  cases d with
  | color n => exact color_of_some h s
  | background n => exact background_of_some h s
  | style n => exact style_of_some h s

theorem concatAll_nil : concatAll [] = "" := rfl

theorem concatAll_cons (a : String) (l : List String) :
    concatAll (a :: l) = a ++ concatAll l := rfl

theorem concatAll_append (l₁ l₂ : List String) :
    concatAll (l₁ ++ l₂) = concatAll l₁ ++ concatAll l₂ := by
  induction l₁ with
  | nil => simp [concatAll]
  | cons a l ih => simp [concatAll_cons, ih, String.append_assoc]

theorem utf8ByteSize_append (s t : String) :
    (s ++ t).utf8ByteSize = s.utf8ByteSize + t.utf8ByteSize := by
  cases s with
  | mk d₁ =>
    cases t with
    | mk d₂ => simp [String.utf8ByteSize, String.append]

theorem applyAll_nesting (text : String) (ds : List Deco)
    (h : ∀ d ∈ ds, escOf d ≠ none) :
    applyAll text ds =
      concatAll ((ds.map fun d => (escOf d).getD "").reverse) ++ text ++
        concatAll (ds.map fun _ => reset) := by
  induction ds generalizing text with
  | nil => simp [applyAll, concatAll]
  | cons d ds ih =>
    obtain ⟨e, he⟩ := Option.ne_none_iff_exists'.mp (h d (List.mem_cons_self d ds))
    have hstep : applyAll text (d :: ds) = applyAll (applyDeco text d) ds := rfl
    rw [hstep, applyDeco_of_some he,
      ih _ (fun x hx => h x (List.mem_cons_of_mem d hx))]
    simp only [List.map_cons, List.reverse_cons, concatAll_append,
      concatAll_cons, concatAll_nil, he, Option.getD_some, String.append_empty]
    simp [String.append_assoc]

/-- C1: for every text string and every color name among the 17 recognized
names, `color text name` returns the spec's escape code for the name,
followed by the text, followed by the reset sequence `"\x1b[0m"`. -/
theorem color_recognized_spec (text name : String)
    (h : name ∈ recognizedNames) :
    color text name = escapeForColorSpec name ++ text ++ reset := by
  simp only [recognizedNames, List.mem_cons, List.not_mem_nil, or_false] at h
  rcases h with rfl | rfl | rfl | rfl | rfl | rfl | rfl | rfl | rfl | rfl |
    rfl | rfl | rfl | rfl | rfl | rfl | rfl <;> rfl

theorem color_recognized_spec_witness :
    color "colorama" "red" = escapeForColorSpec "red" ++ "colorama" ++ reset :=
  color_recognized_spec "colorama" "red" (by decide)

/-- C2: for every text string and every name missing from the relevant
attribute table, each of `color`, `background` and `style` returns the text
exactly unchanged — no escape code is prepended and no reset is appended. -/
theorem unknown_name_noop (text name : String) :
    (map_color name = none → color text name = text) ∧
    (map_background name = none → background text name = text) ∧
    (map_style name = none → style text name = text) :=
  ⟨fun h => color_of_none h text, fun h => background_of_none h text,
    fun h => style_of_none h text⟩

theorem unknown_name_noop_witness :
    color "colorama" "RED" = "colorama" ∧
    background "colorama" "RED" = "colorama" ∧
    style "colorama" "RED" = "colorama" :=
  ⟨(unknown_name_noop "colorama" "RED").1 rfl,
    (unknown_name_noop "colorama" "RED").2.1 rfl,
    (unknown_name_noop "colorama" "RED").2.2 rfl⟩

/-- C3: a sequence of decoration calls whose names all match produces
`EscapeCode_n ++ ... ++ EscapeCode_1 ++ text ++ Reset_1 ++ ... ++ Reset_n`
(the most recently applied escape code is closest to the text on the left);
in particular chaining red color, green background and bold style on
`"colorama"` yields
`"\x1b[1m\x1b[42m\x1b[31mcolorama\x1b[0m\x1b[0m\x1b[0m"`. -/
theorem compose_nesting :
    (∀ (text : String) (ds : List Deco), (∀ d ∈ ds, escOf d ≠ none) →
      applyAll text ds =
        concatAll ((ds.map fun d => (escOf d).getD "").reverse) ++ text ++
          concatAll (ds.map fun _ => reset)) ∧
    style (background (color "colorama" "red") "green") "bold" =
      "\x1b[1m\x1b[42m\x1b[31mcolorama\x1b[0m\x1b[0m\x1b[0m" :=
  ⟨applyAll_nesting, rfl⟩

theorem compose_nesting_witness :
    applyAll "colorama" [Deco.color "red", Deco.style "bold"] =
      concatAll (([Deco.color "red", Deco.style "bold"].map
          fun d => (escOf d).getD "").reverse) ++ "colorama" ++
        concatAll ([Deco.color "red", Deco.style "bold"].map fun _ => reset) :=
  compose_nesting.1 "colorama" [Deco.color "red", Deco.style "bold"] (by decide)

/-- C4: for every text string and every background name among the 17
recognized names, `background text name` returns the spec's background escape
code (40-47, 100-107, reset for `"normal"`), then the text, then the reset;
in particular `background "colorama" "bright black"` is
`"\x1b[100mcolorama\x1b[0m"`. -/
theorem background_recognized_spec (text name : String)
    (h : name ∈ recognizedNames) :
    background text name = escapeForBackgroundSpec name ++ text ++ reset ∧
    background "colorama" "bright black" = "\x1b[100mcolorama\x1b[0m" := by
  refine ⟨?_, rfl⟩
  simp only [recognizedNames, List.mem_cons, List.not_mem_nil, or_false] at h
  rcases h with rfl | rfl | rfl | rfl | rfl | rfl | rfl | rfl | rfl | rfl |
    rfl | rfl | rfl | rfl | rfl | rfl | rfl <;> rfl

theorem background_recognized_spec_witness :
    background "colorama" "bright black" =
      escapeForBackgroundSpec "bright black" ++ "colorama" ++ reset :=
  (background_recognized_spec "colorama" "bright black" (by decide)).1

/-- C5: for every text string and every style name among exactly `normal`,
`bold`, `faint`, `italic`, `underline`, `style text name` returns the spec's
style escape code (codes 0-4), then the text, then the reset; any other
style name yields no match. -/
theorem style_recognized_spec (text name : String) :
    (name ∈ styleNames →
      style text name = escapeForStyleSpec name ++ text ++ reset) ∧
    (name ∉ styleNames → map_style name = none) := by
  constructor
  · intro h
    simp only [styleNames, List.mem_cons, List.not_mem_nil, or_false] at h
    rcases h with rfl | rfl | rfl | rfl | rfl <;> rfl
  · intro h
    simp only [styleNames, List.mem_cons, List.not_mem_nil, or_false,
      not_or] at h
    obtain ⟨h₁, h₂, h₃, h₄, h₅⟩ := h
    simp [map_style, h₁, h₂, h₃, h₄, h₅]

theorem style_recognized_spec_witness :
    style "colorama" "bold" = escapeForStyleSpec "bold" ++ "colorama" ++ reset ∧
    map_style "wiggly" = none :=
  ⟨(style_recognized_spec "colorama" "bold").1 (by decide),
    (style_recognized_spec "colorama" "wiggly").2 (by decide)⟩

/-- C6: the name `"normal"` resolves to the same reset code `"\x1b[0m"` in
all three attribute classes: `color`, `background` and `style` at `"normal"`
agree and each yields `"\x1b[0m" ++ text ++ "\x1b[0m"`. -/
theorem normal_shared_reset (text : String) :
    color text "normal" = reset ++ text ++ reset ∧
    background text "normal" = reset ++ text ++ reset ∧
    style text "normal" = reset ++ text ++ reset :=
  ⟨rfl, rfl, rfl⟩

/-- C7: the three resolvers are total over the string domain: on every input
each returns either `some` escape code or `none`; "no match" is an ordinary
return value, not a failure. -/
theorem resolvers_total (name : String) :
    ((∃ e, map_color name = some e) ∨ map_color name = none) ∧
    ((∃ e, map_background name = some e) ∨ map_background name = none) ∧
    ((∃ e, map_style name = some e) ∨ map_style name = none) := by
  refine ⟨?_, ?_, ?_⟩
  · rcases hc : map_color name with _ | e
    · exact Or.inr rfl
    · exact Or.inl ⟨e, rfl⟩
  · rcases hb : map_background name with _ | e
    · exact Or.inr rfl
    · exact Or.inl ⟨e, rfl⟩
  · rcases hs : map_style name with _ | e
    · exact Or.inr rfl
    · exact Or.inl ⟨e, rfl⟩

/-- C8: each decoration operation is deterministic: equal text and name
inputs give equal outputs for `color`, `background` and `style`. -/
theorem decorations_deterministic (t₁ t₂ n₁ n₂ : String)
    (ht : t₁ = t₂) (hn : n₁ = n₂) :
    color t₁ n₁ = color t₂ n₂ ∧ background t₁ n₁ = background t₂ n₂ ∧
    style t₁ n₁ = style t₂ n₂ := by
  subst ht
  subst hn
  exact ⟨rfl, rfl, rfl⟩

theorem decorations_deterministic_witness :
    color "colorama" "red" = color "colorama" "red" ∧
    background "colorama" "red" = background "colorama" "red" ∧
    style "colorama" "red" = style "colorama" "red" :=
  decorations_deterministic "colorama" "colorama" "red" "red" rfl rfl

/-- C9: for every text string and every name string, the original text
appears unchanged as a contiguous substring of the result: each operation
only prepends a prefix and appends a suffix (possibly both empty). -/
theorem text_preserved_infix (text name : String) :
    (∃ p q, color text name = p ++ text ++ q) ∧
    (∃ p q, background text name = p ++ text ++ q) ∧
    (∃ p q, style text name = p ++ text ++ q) := by
  refine ⟨?_, ?_, ?_⟩
  · rcases hc : map_color name with _ | e
    · exact ⟨"", "", by simp [color_of_none hc]⟩
    · exact ⟨e, reset, color_of_some hc text⟩
  · rcases hb : map_background name with _ | e
    · exact ⟨"", "", by simp [background_of_none hb]⟩
    · exact ⟨e, reset, background_of_some hb text⟩
  · rcases hs : map_style name with _ | e
    · exact ⟨"", "", by simp [style_of_none hs]⟩
    · exact ⟨e, reset, style_of_some hs text⟩

/-- C10: the byte length of each operation's output is the input byte length
exactly when the name does not match, and the input byte length plus the
escape code's byte length plus 4 (the byte length of `"\x1b[0m"`) when it
matches; in particular the output is never shorter than the input. -/
theorem output_length (text name : String) :
    (color text name).utf8ByteSize =
      text.utf8ByteSize +
        ((map_color name).map fun e => e.utf8ByteSize + 4).getD 0 ∧
    (background text name).utf8ByteSize =
      text.utf8ByteSize +
        ((map_background name).map fun e => e.utf8ByteSize + 4).getD 0 ∧
    (style text name).utf8ByteSize =
      text.utf8ByteSize +
        ((map_style name).map fun e => e.utf8ByteSize + 4).getD 0 ∧
    text.utf8ByteSize ≤ (color text name).utf8ByteSize ∧
    text.utf8ByteSize ≤ (background text name).utf8ByteSize ∧
    text.utf8ByteSize ≤ (style text name).utf8ByteSize := by
  have hres : reset.utf8ByteSize = 4 := rfl
  have h₁ : (color text name).utf8ByteSize =
      text.utf8ByteSize +
        ((map_color name).map fun e => e.utf8ByteSize + 4).getD 0 := by
    rcases hc : map_color name with _ | e
    · simp [color_of_none hc]
    · simp [color_of_some hc, utf8ByteSize_append, hres]
      omega
  have h₂ : (background text name).utf8ByteSize =
      text.utf8ByteSize +
        ((map_background name).map fun e => e.utf8ByteSize + 4).getD 0 := by
    rcases hb : map_background name with _ | e
    · simp [background_of_none hb]
    · simp [background_of_some hb, utf8ByteSize_append, hres]
      omega
  have h₃ : (style text name).utf8ByteSize =
      text.utf8ByteSize +
        ((map_style name).map fun e => e.utf8ByteSize + 4).getD 0 := by
    rcases hs : map_style name with _ | e
    · simp [style_of_none hs]
    · simp [style_of_some hs, utf8ByteSize_append, hres]
      omega
  exact ⟨h₁, h₂, h₃, h₁ ▸ Nat.le_add_right _ _, h₂ ▸ Nat.le_add_right _ _,
    h₃ ▸ Nat.le_add_right _ _⟩

end Colorama
